import Mathlib

/-!
# Verification of the zk benchmark orchestration script

A shallow embedding of `benchmark_script.py` together with proofs of the
specified properties of its parsing and session logic.

Modelling conventions:
* Python strings are `String`/`List Char`; the regex classes `\d` and `\s`
  are modelled over their ASCII members, which covers every input the
  script is specified on.
* Python `float` arithmetic on the parsed values is modelled exactly in `ℚ`;
  Python/pandas integers are modelled as unbounded `ℤ`.
* Exceptions (`KeyError`, `ValueError`) are modelled with `Except String`.
* Filesystem and subprocess interaction is modelled by an explicit `World`
  oracle supplying file existence and the captured streams of each command.
-/

namespace Benchmark

/-- ASCII members of the regex class `\s` (space, tab, newline,
vertical tab, form feed, carriage return). -/
def isPySpace (c : Char) : Bool :=
  c = ' ' || c = '\t' || c = '\n' || c = '\x0b' || c = '\x0c' || c = '\r'

/-- Log levels of the `logging` calls the script makes. -/
inductive Level where
  | info
  | error
deriving DecidableEq, Repr

/-- One `logging.info` / `logging.error` call: level and message. -/
abbrev LogEntry := Level × String

/-- Models `", ".join` and friends: join a list of strings with a separator. -/
def joinSep (sep : String) : List String → String
  | [] => ""
  | [x] => x
  | x :: y :: xs => x ++ sep ++ joinSep sep (y :: xs)

/-- Predicate: `s` occurs inside `t` as a contiguous substring. -/
def SubstrOf (s t : String) : Prop :=
  ∃ p q, t = p ++ s ++ q

/-- Numeric value of a list of decimal digit characters, most significant
first; models `int` on a digit string. -/
def natOfDigits (l : List Char) : ℕ :=
  l.foldl (fun a c => 10 * a + (c.toNat - 48)) 0

/-- Does `p` occur as a prefix of `l`? -/
def leadsWith : List Char → List Char → Bool
  | [], _ => true
  | _ :: _, [] => false
  | p :: ps, c :: cs => p = c && leadsWith ps cs

/-! ## 4.2 Elapsed-Time Extractor (`extract_and_convert_time`)

The pattern is `(\d+):(\d+\.\d+)elapsed`.  Since `\d` never matches `:`,
`.` or `e`, the greedy quantifiers are deterministic: at a given start
position the match, when it exists, takes the maximal digit runs.  The
search tries start positions left to right, as `re.search` does. -/

/-- Attempt the pattern `(\d+):(\d+\.\d+)elapsed` anchored at the head of
the list; on success return the two capture groups `(minutes, seconds
integer part, seconds fractional part)`. -/
def tryMatch (cs : List Char) : Option (List Char × List Char × List Char) :=
  let m := cs.takeWhile Char.isDigit
  let r1 := cs.dropWhile Char.isDigit
  match m, r1 with
  | _ :: _, ':' :: r2 =>
    let s := r2.takeWhile Char.isDigit
    let r3 := r2.dropWhile Char.isDigit
    match s, r3 with
    | _ :: _, '.' :: r4 =>
      let f := r4.takeWhile Char.isDigit
      let r5 := r4.dropWhile Char.isDigit
      match f with
      | _ :: _ => if leadsWith "elapsed".data r5 then some (m, s, f) else none
      | [] => none
    | _, _ => none
  | _, _ => none

/-- Models `re.search`: try the pattern at each start position, left to right. -/
def searchElapsed : List Char → Option (List Char × List Char × List Char)
  | [] => none
  | c :: cs =>
    match tryMatch (c :: cs) with
    | some g => some g
    | none => searchElapsed cs

/-- Exact value of the seconds group `s.f` (models `float` on the
matched text). -/
def ratOfSec (s f : List Char) : ℚ :=
  (natOfDigits s : ℚ) + (natOfDigits f : ℚ) / (10 : ℚ) ^ f.length

/-- Embeds `extract_and_convert_time`: search for the elapsed pattern and return
`minutes * 60 + seconds`, or `none` when the pattern is absent. -/
def extract_and_convert_time (output : String) : Option ℚ :=
  match searchElapsed output.data with
  | some (m, s, f) => some ((natOfDigits m : ℚ) * 60 + ratOfSec s f)
  | none => none

/-- Declarative reading of the regex: at position `i` of `cs` stands a
token `m ++ ":" ++ s ++ "." ++ f ++ "elapsed"` with `m`, `s`, `f`
non-empty digit runs. -/
def ElapsedTokenAt (cs : List Char) (i : ℕ) (m s f : List Char) : Prop :=
  m ≠ [] ∧ s ≠ [] ∧ f ≠ [] ∧
  (∀ c ∈ m, c.isDigit) ∧ (∀ c ∈ s, c.isDigit) ∧ (∀ c ∈ f, c.isDigit) ∧
  ∃ r, cs.drop i = m ++ ':' :: (s ++ '.' :: (f ++ ("elapsed".data ++ r)))

lemma munch_spec {xs ys : List Char} {c : Char}
    (hxs : ∀ x ∈ xs, x.isDigit) (hc : ¬ c.isDigit) :
    (xs ++ c :: ys).takeWhile Char.isDigit = xs ∧
    (xs ++ c :: ys).dropWhile Char.isDigit = c :: ys := by
  induction xs with
  | nil =>
    simp only [List.nil_append, List.takeWhile_cons, List.dropWhile_cons]
    rw [if_neg (by simpa using hc), if_neg (by simpa using hc)]
    exact ⟨rfl, rfl⟩
  | cons x xs ih =>
    have hx : x.isDigit := hxs x (List.mem_cons_self _ _)
    have hrest : ∀ y ∈ xs, y.isDigit := fun y hy => hxs y (List.mem_cons_of_mem _ hy)
    obtain ⟨h1, h2⟩ := ih hrest
    simp [List.cons_append, List.takeWhile_cons, List.dropWhile_cons, hx, h1, h2]

lemma leadsWith_append (p r : List Char) : leadsWith p (p ++ r) = true := by
  induction p with
  | nil => rfl
  | cons c cs ih => simp [leadsWith, ih]

lemma leadsWith_iff (p l : List Char) :
    leadsWith p l = true ↔ ∃ r, l = p ++ r := by
  constructor
  · induction p generalizing l with
    | nil => intro _; exact ⟨l, rfl⟩
    | cons c cs ih =>
      intro h
      cases l with
      | nil => simp [leadsWith] at h
      | cons d ds =>
        simp only [leadsWith, Bool.and_eq_true, decide_eq_true_eq] at h
        obtain ⟨rfl, h2⟩ := h
        obtain ⟨r, rfl⟩ := ih ds h2
        exact ⟨r, rfl⟩
  · rintro ⟨r, rfl⟩
    exact leadsWith_append p r

/-- The anchored matcher succeeds exactly on lists that start with an
elapsed token, and the groups are the token components. -/
lemma tryMatch_eq_some_iff (cs m s f : List Char) :
    tryMatch cs = some (m, s, f) ↔ ElapsedTokenAt cs 0 m s f := by
  constructor
  · intro h
    unfold tryMatch at h
    rcases h1 : cs.takeWhile Char.isDigit with _ | ⟨a, m'⟩ <;>
      rcases h2 : cs.dropWhile Char.isDigit with _ | ⟨b, r2⟩ <;>
      simp only [h1, h2] at h
    · exact absurd h (by simp)
    · exact absurd h (by simp)
    · exact absurd h (by simp)
    by_cases hb : b = ':'
    case neg =>
      exfalso
      revert h
      cases b
      simp_all [tryMatch]
    subst hb
    simp only [] at h
    rcases h3 : r2.takeWhile Char.isDigit with _ | ⟨a2, s'⟩ <;>
      rcases h4 : r2.dropWhile Char.isDigit with _ | ⟨b2, r4⟩ <;>
      simp only [h3, h4] at h
    · exact absurd h (by simp)
    · exact absurd h (by simp)
    · exact absurd h (by simp)
    by_cases hb2 : b2 = '.'
    case neg =>
      exfalso
      revert h
      cases b2
      simp_all
    subst hb2
    simp only [] at h
    rcases h5 : r4.takeWhile Char.isDigit with _ | ⟨a3, f'⟩ <;>
      simp only [h5] at h
    · exact absurd h (by simp)
    rcases h6 : leadsWith "elapsed".data (r4.dropWhile Char.isDigit) with _ | _ <;>
      simp only [h6, if_true, if_false] at h
    · exact absurd h (by simp)
    obtain ⟨rfl, rfl, rfl⟩ : a :: m' = m ∧ a2 :: s' = s ∧ a3 :: f' = f := by
      simpa using h
    obtain ⟨r, hr⟩ := (leadsWith_iff _ _).mp h6
    refine ⟨by simp, by simp, by simp, ?_, ?_, ?_, ?_⟩
    · intro c hc; exact List.mem_takeWhile_imp (h1 ▸ hc)
    · intro c hc; exact List.mem_takeWhile_imp (h3 ▸ hc)
    · intro c hc; exact List.mem_takeWhile_imp (h5 ▸ hc)
    · refine ⟨r, ?_⟩
      have e1 : cs = (a :: m') ++ ':' :: r2 := by
        rw [← h1, ← h2, List.takeWhile_append_dropWhile]
      have e2 : r2 = (a2 :: s') ++ '.' :: r4 := by
        rw [← h3, ← h4, List.takeWhile_append_dropWhile]
      have e3 : r4 = (a3 :: f') ++ ("elapsed".data ++ r) := by
        rw [← h5, ← hr, List.takeWhile_append_dropWhile]
      simp only [List.drop_zero]
      rw [e1, e2, e3]
  · rintro ⟨hm, hs, hf, hdm, hds, hdf, r, hr⟩
    simp only [List.drop_zero] at hr
    rcases m with _ | ⟨a, m'⟩
    · exact absurd rfl hm
    rcases s with _ | ⟨a2, s'⟩
    · exact absurd rfl hs
    rcases f with _ | ⟨a3, f'⟩
    · exact absurd rfl hf
    have hsplit : "elapsed".data ++ r = 'e' :: ("lapsed".data ++ r) := rfl
    rw [hsplit] at hr
    subst hr
    obtain ⟨t3, d3⟩ :=
      @munch_spec (a3 :: f') ("lapsed".data ++ r) 'e' hdf (by decide)
    obtain ⟨t2, d2⟩ :=
      @munch_spec (a2 :: s') (a3 :: f' ++ 'e' :: ("lapsed".data ++ r)) '.' hds (by decide)
    obtain ⟨t1, d1⟩ :=
      @munch_spec (a :: m')
        (a2 :: s' ++ '.' :: (a3 :: f' ++ 'e' :: ("lapsed".data ++ r))) ':' hdm (by decide)
    simp only [tryMatch, t1, d1, t2, d2, t3, d3]
    have hlw : leadsWith "elapsed".data ('e' :: ("lapsed".data ++ r)) = true :=
      leadsWith_append "elapsed".data r
    rw [hlw]
    simp

/-- Shift: a token at position `i` of `cs` is a token at the head of
`cs.drop i`. -/
lemma elapsedTokenAt_iff_tryMatch (cs : List Char) (i : ℕ) (m s f : List Char) :
    ElapsedTokenAt cs i m s f ↔ tryMatch (cs.drop i) = some (m, s, f) := by
  rw [tryMatch_eq_some_iff]
  unfold ElapsedTokenAt
  simp [List.drop_zero]

lemma searchElapsed_eq_none_iff (cs : List Char) :
    searchElapsed cs = none ↔ ∀ i, tryMatch (cs.drop i) = none := by
  constructor
  · intro h i
    induction cs generalizing i with
    | nil => cases i <;> simp [tryMatch]
    | cons c cs ih =>
      unfold searchElapsed at h
      rcases h0 : tryMatch (c :: cs) with _ | g
      · rw [h0] at h
        cases i with
        | zero => exact h0
        | succ j => exact ih h j
      · rw [h0] at h; exact absurd h (by simp)
  · intro h
    induction cs with
    | nil => rfl
    | cons c cs ih =>
      unfold searchElapsed
      have h0 := h 0
      simp only [List.drop_zero] at h0
      rw [h0]
      exact ih (fun i => h (i + 1))

lemma searchElapsed_eq_some_of (cs : List Char) (i : ℕ) (g : List Char × List Char × List Char)
    (hi : tryMatch (cs.drop i) = some g)
    (hmin : ∀ j < i, tryMatch (cs.drop j) = none) :
    searchElapsed cs = some g := by
  induction cs generalizing i with
  | nil =>
    exfalso
    rw [List.drop_nil] at hi
    simp [tryMatch] at hi
  | cons c cs ih =>
    unfold searchElapsed
    cases i with
    | zero =>
      rw [List.drop_zero] at hi
      rw [hi]
    | succ j =>
      have h0 := hmin 0 (Nat.succ_pos j)
      simp only [List.drop_zero] at h0
      rw [h0]
      exact ih j hi (fun k hk => hmin (k + 1) (Nat.succ_lt_succ hk))

lemma searchElapsed_some_exists {cs : List Char}
    {g : List Char × List Char × List Char} (h : searchElapsed cs = some g) :
    ∃ i, tryMatch (cs.drop i) = some g := by
  induction cs with
  | nil => exact absurd h (by simp [searchElapsed])
  | cons c cs ih =>
    unfold searchElapsed at h
    rcases h0 : tryMatch (c :: cs) with _ | g0
    · rw [h0] at h
      obtain ⟨i, hi⟩ := ih h
      exact ⟨i + 1, hi⟩
    · rw [h0] at h
      obtain rfl : g0 = g := by simpa using h
      exact ⟨0, h0⟩

lemma no_token_of_searchElapsed_none {cs : List Char}
    (h : searchElapsed cs = none) :
    ∀ i m s f, ¬ ElapsedTokenAt cs i m s f := by
  intro i m s f hT
  have htm := (elapsedTokenAt_iff_tryMatch cs i m s f).mp hT
  rw [(searchElapsed_eq_none_iff cs).mp h i] at htm
  exact absurd htm (by simp)

/-- C2: for every input text, `extract_and_convert_time` returns `none`
exactly when no token `<minutes>:<seconds-with-fraction>elapsed` occurs
in the text, and otherwise returns `minutes * 60 + seconds` computed
from the leftmost such token. -/
theorem extract_and_convert_time_spec (out : String) :
    (extract_and_convert_time out = none ↔
      ∀ i m s f, ¬ ElapsedTokenAt out.data i m s f) ∧
    (∀ i m s f, ElapsedTokenAt out.data i m s f →
      (∀ j m2 s2 f2, j < i → ¬ ElapsedTokenAt out.data j m2 s2 f2) →
      extract_and_convert_time out =
        some ((natOfDigits m : ℚ) * 60 + ratOfSec s f)) := by
  constructor
  · constructor
    · intro h
      unfold extract_and_convert_time at h
      rcases hs : searchElapsed out.data with _ | ⟨m0, s0, f0⟩
      · exact no_token_of_searchElapsed_none hs
      · rw [hs] at h
        exact absurd h (by simp)
    · intro h
      unfold extract_and_convert_time
      rcases hs : searchElapsed out.data with _ | ⟨m0, s0, f0⟩
      · rfl
      · exfalso
        obtain ⟨i, hi⟩ := searchElapsed_some_exists hs
        exact h i m0 s0 f0 ((elapsedTokenAt_iff_tryMatch _ _ _ _ _).mpr hi)
  · intro i m s f hT hmin
    have htm := (elapsedTokenAt_iff_tryMatch _ i m s f).mp hT
    have hnone : ∀ j < i, tryMatch (out.data.drop j) = none := by
      intro j hj
      rcases h0 : tryMatch (out.data.drop j) with _ | ⟨m2, s2, f2⟩
      · rfl
      · exact absurd ((elapsedTokenAt_iff_tryMatch _ _ _ _ _).mpr h0) (hmin j m2 s2 f2 hj)
    have hsearch := searchElapsed_eq_some_of out.data i (m, s, f) htm hnone
    unfold extract_and_convert_time
    rw [hsearch]

/-- Witness for C2 at the example of the spec: the first token of
`"abc 0:12.50elapsed tail"` yields `12.5` seconds. -/
theorem extract_and_convert_time_spec_witness :
    extract_and_convert_time "abc 0:12.50elapsed tail" = some (25 / 2) := by
  have h := (extract_and_convert_time_spec "abc 0:12.50elapsed tail").2 4
    ['0'] ['1', '2'] ['5', '0']
    ((elapsedTokenAt_iff_tryMatch _ 4 _ _ _).mpr (by decide))
    (by
      intro j m2 s2 f2 hj hT
      have htm := (elapsedTokenAt_iff_tryMatch _ j _ _ _).mp hT
      interval_cases j
      · rw [(by decide :
          tryMatch (List.drop 0 "abc 0:12.50elapsed tail".data) = none)] at htm
        cases htm
      · rw [(by decide :
          tryMatch (List.drop 1 "abc 0:12.50elapsed tail".data) = none)] at htm
        cases htm
      · rw [(by decide :
          tryMatch (List.drop 2 "abc 0:12.50elapsed tail".data) = none)] at htm
        cases htm
      · rw [(by decide :
          tryMatch (List.drop 3 "abc 0:12.50elapsed tail".data) = none)] at htm
        cases htm)
  rw [h]
  have e1 : natOfDigits ['0'] = 0 := by decide
  have e2 : natOfDigits ['1', '2'] = 12 := by decide
  have e3 : natOfDigits ['5', '0'] = 50 := by decide
  simp only [ratOfSec, e1, e2, e3, List.length_cons, List.length_nil]
  norm_num

/-- C10: when the text holds no token whose seconds field carries a
fractional part (the only token shape the pattern admits),
`extract_and_convert_time` returns `none`: the regex demands a decimal
point between two digit runs in the seconds field. -/
theorem extract_time_requires_fractional_seconds (out : String)
    (h : ∀ i m s f, ¬ ElapsedTokenAt out.data i m s f) :
    extract_and_convert_time out = none := by
  unfold extract_and_convert_time
  rcases hs : searchElapsed out.data with _ | ⟨m0, s0, f0⟩
  · rfl
  · exfalso
    obtain ⟨i, hi⟩ := searchElapsed_some_exists hs
    exact h i m0 s0 f0 ((elapsedTokenAt_iff_tryMatch _ _ _ _ _).mpr hi)

/-- Witness for C10: `"1:05elapsed"` has integer seconds and no
fractional token, so the extractor reports absence. -/
theorem extract_time_requires_fractional_seconds_witness :
    extract_and_convert_time "1:05elapsed" = none :=
  extract_time_requires_fractional_seconds "1:05elapsed"
    (no_token_of_searchElapsed_none (by decide))

/-! ## 4.3 Memory-Report Parser (`process_massif_output`)

The source keeps the lines matching `^\s*\d+\s+\d`, splits each kept
line on whitespace runs, silently drops kept lines with fewer than six
fields, converts field 0 with `int` and the comma-stripped fields 1-5
with `astype(int)`, and appends a row holding the column-wise sums,
labelled `Total` in the index column.  On a table with no parsed rows
the DataFrame has no columns and the column access raises `KeyError`;
a non-numeric cell raises `ValueError`. -/

/-- Models `output.split("\n")`: split at every newline, keeping empty
pieces, so the empty text yields one empty line. -/
def splitNl : List Char → List (List Char)
  | [] => [[]]
  | c :: cs =>
    if c = '\n' then [] :: splitNl cs
    else
      match splitNl cs with
      | [] => [[c]]
      | w :: ws => (c :: w) :: ws

/-- Remove the thousands separators, as `str.replace(",", "")` does. -/
def stripCommas (s : List Char) : List Char := s.filter (fun c => c ≠ ',')

/-- Models `int` on a whitespace-free token: an optional sign followed by a
non-empty digit run; `none` models a `ValueError`. -/
def pyInt : List Char → Option ℤ
  | '-' :: rest =>
    if rest ≠ [] ∧ ∀ c ∈ rest, c.isDigit then some (-(natOfDigits rest : ℤ)) else none
  | '+' :: rest =>
    if rest ≠ [] ∧ ∀ c ∈ rest, c.isDigit then some (natOfDigits rest : ℤ) else none
  | s =>
    if s ≠ [] ∧ ∀ c ∈ s, c.isDigit then some (natOfDigits s : ℤ) else none

/-- Models `re.match(r"^\s*\d+\s+\d", line)`: optional leading whitespace, a
non-empty digit run, a non-empty whitespace run, then another digit. -/
def matchesDataLine (l : List Char) : Bool :=
  let r1 := l.dropWhile isPySpace
  let r2 := r1.dropWhile Char.isDigit
  let r3 := r2.dropWhile isPySpace
  !(r1.takeWhile Char.isDigit).isEmpty && !(r2.takeWhile isPySpace).isEmpty &&
    (match r3 with
     | c :: _ => c.isDigit
     | [] => false)

/-- Models `re.split(r"\s+", line.strip())`: the maximal whitespace-free words
of the line, in order. -/
def splitWs (l : List Char) : List (List Char) :=
  (l.foldr
    (fun c acc =>
      if isPySpace c then [] :: acc
      else
        match acc with
        | [] => [[c]]
        | w :: ws => (c :: w) :: ws)
    []).filter (fun w => w ≠ [])

/-- One parsed line before numeric conversion: the index field is
already converted by `int(parts[0])`; the five remaining fields are
kept as text. -/
structure SampleRaw where
  n : ℤ
  time_i : List Char
  totalB : List Char
  usefulHeapB : List Char
  extraHeapB : List Char
  stacksB : List Char
deriving DecidableEq, Repr

/-- One row of the resulting table; `n = none` stands for the `Total`
label carried by the synthetic last row. -/
structure Row where
  n : Option ℤ
  time_i : ℤ
  totalB : ℤ
  usefulHeapB : ℤ
  extraHeapB : ℤ
  stacksB : ℤ
deriving DecidableEq, Repr

/-- The parsing loop over the kept lines: split each into fields, keep
lines with at least six fields, convert field 0 with `int`. -/
def parseTables : List (List Char) → Except String (List SampleRaw)
  | [] => .ok []
  | l :: ls =>
    let parts := splitWs l
    if 6 ≤ parts.length then
      match pyInt (parts.getD 0 []) with
      | none => .error "ValueError"
      | some n =>
        match parseTables ls with
        | .error e => .error e
        | .ok rest =>
          .ok (⟨n, parts.getD 1 [], parts.getD 2 [], parts.getD 3 [],
                parts.getD 4 [], parts.getD 5 []⟩ :: rest)
    else parseTables ls

/-- The `astype(int)` conversion of one row: strip the thousands commas
and convert each of the five text columns. -/
def convertSample (r : SampleRaw) : Option Row :=
  match pyInt (stripCommas r.time_i), pyInt (stripCommas r.totalB),
      pyInt (stripCommas r.usefulHeapB), pyInt (stripCommas r.extraHeapB),
      pyInt (stripCommas r.stacksB) with
  | some a, some b, some c, some d, some e => some ⟨some r.n, a, b, c, d, e⟩
  | _, _, _, _, _ => none

/-- Conversion over all rows; a failing cell raises `ValueError`. -/
def convertAll : List SampleRaw → Except String (List Row)
  | [] => .ok []
  | r :: rs =>
    match convertSample r with
    | none => .error "ValueError"
    | some row =>
      match convertAll rs with
      | .error e => .error e
      | .ok rest => .ok (row :: rest)

/-- The column-wise sums of a list of rows, labelled as the synthetic
total row. -/
def colSumRow (rows : List Row) : Row :=
  { n := none,
    time_i := (rows.map Row.time_i).sum,
    totalB := (rows.map Row.totalB).sum,
    usefulHeapB := (rows.map Row.usefulHeapB).sum,
    extraHeapB := (rows.map Row.extraHeapB).sum,
    stacksB := (rows.map Row.stacksB).sum }

/-- Embeds `process_massif_output`: keep the data lines, parse and convert
them, and append the synthetic total row. -/
def process_massif_output (output : String) : Except String (List Row) :=
  let lines := splitNl output.data
  let table_lines := lines.filter matchesDataLine
  match parseTables table_lines with
  | .error e => .error e
  | .ok parsed =>
    if parsed.isEmpty then .error "KeyError"
    else
      match convertAll parsed with
      | .error e => .error e
      | .ok rows =>
        .ok (rows ++
          [{ n := none,
             time_i := (rows.map Row.time_i).sum,
             totalB := (rows.map Row.totalB).sum,
             usefulHeapB := (rows.map Row.usefulHeapB).sum,
             extraHeapB := (rows.map Row.extraHeapB).sum,
             stacksB := (rows.map Row.stacksB).sum }])

/-- A line the parser keeps as a data row: the regex match together
with at least six fields. -/
def keepsAsDataLine (l : List Char) : Bool :=
  matchesDataLine l && decide (6 ≤ (splitWs l).length)

/-- The raw row a kept line parses to. -/
def rawOfLine (l : List Char) : SampleRaw :=
  let parts := splitWs l
  ⟨(pyInt (parts.getD 0 [])).getD 0, parts.getD 1 [], parts.getD 2 [],
    parts.getD 3 [], parts.getD 4 [], parts.getD 5 []⟩

/-- The fully converted row of a kept line. -/
def rowOfLine (l : List Char) : Row :=
  (convertSample (rawOfLine l)).getD ⟨some 0, 0, 0, 0, 0, 0⟩

/-- Spec-side view: the sample rows of a report text are the kept
lines, each converted. -/
def dataRowsView (output : String) : List Row :=
  ((splitNl output.data).filter keepsAsDataLine).map rowOfLine

/-- The number of well-shaped data lines of a report text. -/
def dataLineCount (output : String) : ℕ :=
  ((splitNl output.data).filter keepsAsDataLine).length

lemma parseTables_ok (ls : List (List Char))
    (h : ∀ l ∈ ls, 6 ≤ (splitWs l).length → (pyInt ((splitWs l).getD 0 [])).isSome) :
    parseTables ls =
      .ok ((ls.filter (fun l => decide (6 ≤ (splitWs l).length))).map rawOfLine) := by
  induction ls with
  | nil => rfl
  | cons l ls ih =>
    have hrest : ∀ x ∈ ls, 6 ≤ (splitWs x).length → (pyInt ((splitWs x).getD 0 [])).isSome :=
      fun x hx => h x (List.mem_cons_of_mem _ hx)
    unfold parseTables
    by_cases hlen : 6 ≤ (splitWs l).length
    · rw [if_pos hlen]
      have hsome := h l (List.mem_cons_self _ _) hlen
      rcases h0 : pyInt ((splitWs l).getD 0 []) with _ | n
      · rw [h0] at hsome; exact absurd hsome (by simp)
      · rw [ih hrest]
        have hfil : (l :: ls).filter (fun x => decide (6 ≤ (splitWs x).length)) =
            l :: ls.filter (fun x => decide (6 ≤ (splitWs x).length)) := by
          simp [List.filter_cons, hlen]
        rw [hfil, List.map_cons]
        have hget : (pyInt ((splitWs l)[0]?.getD [])).getD 0 = n := by
          rw [← List.getD_eq_getElem?_getD, h0]
          rfl
        simp [rawOfLine, h0, hget]
    · rw [if_neg hlen]
      rw [ih hrest]
      have hfil : (l :: ls).filter (fun x => decide (6 ≤ (splitWs x).length)) =
          ls.filter (fun x => decide (6 ≤ (splitWs x).length)) := by
        simp [List.filter_cons, hlen]
      rw [hfil]

lemma parseTables_ok_inv {ls : List (List Char)} {raws : List SampleRaw}
    (h : parseTables ls = .ok raws) :
    raws = (ls.filter (fun l => decide (6 ≤ (splitWs l).length))).map rawOfLine := by
  induction ls generalizing raws with
  | nil =>
    simp only [parseTables] at h
    cases h
    rfl
  | cons l ls ih =>
    unfold parseTables at h
    by_cases hlen : 6 ≤ (splitWs l).length
    · rw [if_pos hlen] at h
      rcases h0 : pyInt ((splitWs l).getD 0 []) with _ | n
      · rw [h0] at h; exact absurd h (by simp)
      rw [h0] at h
      rcases h1 : parseTables ls with e | rest
      · rw [h1] at h; exact absurd h (by simp)
      rw [h1] at h
      obtain rfl : _ = raws := by simpa using h
      have hfil : (l :: ls).filter (fun x => decide (6 ≤ (splitWs x).length)) =
          l :: ls.filter (fun x => decide (6 ≤ (splitWs x).length)) := by
        simp [List.filter_cons, hlen]
      rw [hfil, List.map_cons, ← ih h1]
      have hget : (pyInt ((splitWs l)[0]?.getD [])).getD 0 = n := by
        rw [← List.getD_eq_getElem?_getD, h0]
        rfl
      simp [rawOfLine, h0, hget]
    · rw [if_neg hlen] at h
      have hfil : (l :: ls).filter (fun x => decide (6 ≤ (splitWs x).length)) =
          ls.filter (fun x => decide (6 ≤ (splitWs x).length)) := by
        simp [List.filter_cons, hlen]
      rw [hfil, ← ih h]

lemma convertAll_ok (rs : List SampleRaw)
    (h : ∀ r ∈ rs, (convertSample r).isSome) :
    convertAll rs = .ok (rs.map (fun r => (convertSample r).getD ⟨some 0, 0, 0, 0, 0, 0⟩)) := by
  induction rs with
  | nil => rfl
  | cons r rs ih =>
    have hr := h r (List.mem_cons_self _ _)
    unfold convertAll
    rcases h0 : convertSample r with _ | row
    · rw [h0] at hr; exact absurd hr (by simp)
    · rw [ih (fun x hx => h x (List.mem_cons_of_mem _ hx))]
      simp [h0]

lemma convertAll_ok_inv {rs : List SampleRaw} {rows : List Row}
    (h : convertAll rs = .ok rows) :
    rows = rs.map (fun r => (convertSample r).getD ⟨some 0, 0, 0, 0, 0, 0⟩) := by
  induction rs generalizing rows with
  | nil =>
    simp only [convertAll] at h
    cases h
    rfl
  | cons r rs ih =>
    unfold convertAll at h
    rcases h0 : convertSample r with _ | row
    · rw [h0] at h; exact absurd h (by simp)
    rw [h0] at h
    rcases h1 : convertAll rs with e | rest
    · rw [h1] at h; exact absurd h (by simp)
    rw [h1] at h
    obtain rfl : _ = rows := by simpa using h
    rw [List.map_cons, ← ih h1]
    simp [h0]

lemma filter_keeps (lines : List (List Char)) :
    (lines.filter matchesDataLine).filter (fun l => decide (6 ≤ (splitWs l).length)) =
      lines.filter keepsAsDataLine := by
  rw [List.filter_filter]
  apply List.filter_congr
  intro l _
  simp [keepsAsDataLine, Bool.and_comm]

/-- C1 (for at least one data line): with every kept line well formed,
the parser returns the converted sample rows followed by one synthetic
row holding the column-wise sums of every numeric column, so N data
lines yield N + 1 rows whose last is the total row. -/
theorem process_massif_output_total_row (output : String)
    (hwf : ∀ l ∈ (splitNl output.data).filter matchesDataLine,
      6 ≤ (splitWs l).length →
        (pyInt ((splitWs l).getD 0 [])).isSome ∧ (convertSample (rawOfLine l)).isSome)
    (hne : 1 ≤ dataLineCount output) :
    process_massif_output output =
      .ok (dataRowsView output ++ [colSumRow (dataRowsView output)]) ∧
    (dataRowsView output).length = dataLineCount output := by
  have hp : parseTables ((splitNl output.data).filter matchesDataLine) =
      .ok (((splitNl output.data).filter keepsAsDataLine).map rawOfLine) := by
    rw [parseTables_ok ((splitNl output.data).filter matchesDataLine)
      (fun l hl hlen => (hwf l hl hlen).1), filter_keeps]
  have hmem : ∀ r ∈ ((splitNl output.data).filter keepsAsDataLine).map rawOfLine,
      (convertSample r).isSome := by
    intro r hr
    obtain ⟨l, hl, rfl⟩ := List.mem_map.mp hr
    have hl2 := List.mem_filter.mp hl
    have hkeep := hl2.2
    simp only [keepsAsDataLine, Bool.and_eq_true, decide_eq_true_eq] at hkeep
    exact (hwf l (List.mem_filter.mpr ⟨hl2.1, hkeep.1⟩) hkeep.2).2
  have hconv := convertAll_ok _ hmem
  have hrows : (((splitNl output.data).filter keepsAsDataLine).map
        rawOfLine).map (fun r => (convertSample r).getD ⟨some 0, 0, 0, 0, 0, 0⟩) =
      dataRowsView output := by
    rw [List.map_map]
    rfl
  have hcount : (dataRowsView output).length = dataLineCount output := by
    simp [dataRowsView, dataLineCount]
  refine ⟨?_, hcount⟩
  have hnonempty : ¬(((splitNl output.data).filter
      keepsAsDataLine).map rawOfLine).isEmpty = true := by
    intro hE
    have hnil := List.isEmpty_iff.mp hE
    have hlen := congrArg List.length hnil
    simp only [List.length_map, List.length_nil] at hlen
    rw [dataLineCount] at hne
    omega
  unfold process_massif_output
  simp only [hp]
  rw [if_neg hnonempty, hconv]
  simp only [hrows, colSumRow]

/-- The two-line report of the spec example, summing to 3000 bytes. -/
def exReport1 : String := "0 1 1,000 800 150 50\n1 2 2,000 1,600 300 100"

/-- Witness for C1: the spec example has two data lines, giving three
rows whose last holds total(B) 3000. -/
theorem process_massif_output_total_row_witness :
    (process_massif_output exReport1 =
        .ok (dataRowsView exReport1 ++ [colSumRow (dataRowsView exReport1)]) ∧
      (dataRowsView exReport1).length = dataLineCount exReport1) ∧
    dataLineCount exReport1 = 2 ∧ (colSumRow (dataRowsView exReport1)).totalB = 3000 :=
  ⟨process_massif_output_total_row exReport1 (by decide) (by decide), by decide, by decide⟩

/-- Counterexample to C1 as universally stated: at zero data lines the
parser raises a `KeyError` instead of returning the one-row table with
zero sums. -/
theorem process_massif_output_zero_lines_counterexample :
    process_massif_output "no samples here" = .error "KeyError" ∧
    process_massif_output "no samples here" ≠
      .ok [{ n := none, time_i := 0, totalB := 0, usefulHeapB := 0,
             extraHeapB := 0, stacksB := 0 }] := by
  refine ⟨rfl, ?_⟩
  intro h
  rw [show process_massif_output "no samples here" = Except.error "KeyError" from rfl] at h
  exact Except.noConfusion h

/-- C7 amended: with no well-shaped data line in the input the parser
does not return a zero-valued total row; the column access on the
empty table raises a `KeyError`. -/
theorem process_massif_output_no_data_raises (output : String)
    (h : ∀ l ∈ (splitNl output.data).filter matchesDataLine,
      ¬ 6 ≤ (splitWs l).length) :
    process_massif_output output = .error "KeyError" := by
  have hp := parseTables_ok
    ((splitNl output.data).filter matchesDataLine)
    (fun l hl hlen => absurd hlen (h l hl))
  have hfe : ((splitNl output.data).filter matchesDataLine).filter
      (fun l => decide (6 ≤ (splitWs l).length)) = [] := by
    apply List.filter_eq_nil_iff.mpr
    intro l hl
    simpa using h l hl
  rw [hfe] at hp
  unfold process_massif_output
  simp only [hp, List.map_nil, List.isEmpty_nil, if_true]

/-- Witness for the amended C7: a report whose only matching line is
too short ends in the `KeyError`, not in a report. -/
theorem process_massif_output_no_data_raises_witness :
    process_massif_output "5 6\ntext" = .error "KeyError" :=
  process_massif_output_no_data_raises "5 6\ntext" (by decide)

/-- Counterexample to C7 as stated: the empty input makes the parser
raise rather than return the total-only report with zero sums. -/
theorem process_massif_output_empty_counterexample :
    process_massif_output "" = .error "KeyError" ∧
    process_massif_output "" ≠
      .ok [{ n := none, time_i := 0, totalB := 0, usefulHeapB := 0,
             extraHeapB := 0, stacksB := 0 }] := by
  refine ⟨rfl, ?_⟩
  intro h
  rw [show process_massif_output "" = Except.error "KeyError" from rfl] at h
  exact Except.noConfusion h

/-- C8: the sample rows of a successfully parsed report are exactly the
lines matching the data-line shape that have at least six fields, in
order; matching lines with fewer than six fields and non-matching lines
contribute no rows. -/
theorem process_massif_output_rows_exactly (output : String) (rows : List Row)
    (h : process_massif_output output = .ok rows) :
    rows.dropLast = dataRowsView output := by
  unfold process_massif_output at h
  rcases hp : parseTables ((splitNl output.data).filter matchesDataLine)
    with e | parsed
  · simp only [hp] at h
    exact Except.noConfusion h
  · simp only [hp] at h
    by_cases hE : parsed.isEmpty
    · rw [if_pos hE] at h
      exact absurd h (by simp)
    · rw [if_neg hE] at h
      rcases hc : convertAll parsed with e | rows0
      · simp only [hc] at h
        exact Except.noConfusion h
      · simp only [hc] at h
        obtain rfl : rows0 ++ _ = rows := by simpa using h
        rw [List.dropLast_concat, convertAll_ok_inv hc, parseTables_ok_inv hp,
          List.map_map, filter_keeps]
        rfl

/-- A report mixing one full data line, one matching but truncated
line, and prose. -/
def exReport2 : String := "header\n3 4 10 20 30 40 extra\n7 8\nprose 5"

/-- Witness for C8: only the full data line of `exReport2` becomes a
sample row; the truncated and prose lines are dropped. -/
theorem process_massif_output_rows_exactly_witness :
    ([{ n := some 3, time_i := 4, totalB := 10, usefulHeapB := 20,
        extraHeapB := 30, stacksB := 40 },
      { n := none, time_i := 4, totalB := 10, usefulHeapB := 20,
        extraHeapB := 30, stacksB := 40 }] : List Row).dropLast =
      dataRowsView exReport2 :=
  process_massif_output_rows_exactly exReport2 _ (by rfl)

/-! ## 4.1 Process Runner (`run_command`) -/

/-- The outcome of `subprocess.run`: exit status and both captured
streams. -/
structure CmdResult where
  returncode : ℤ
  stdout : String
  stderr : String
deriving DecidableEq, Repr

/-- Embeds `run_command`: return both captured streams; log an error-level
message containing stderr on a non-zero exit, otherwise an info-level
message containing stdout. -/
def run_command (res : CmdResult) : (String × String) × LogEntry :=
  ((res.stdout, res.stderr),
    if res.returncode ≠ 0 then
      (Level.error, "Command failed with error: " ++ res.stderr)
    else
      (Level.info, "Command output: " ++ res.stdout))

/-- C6: `run_command` always returns both captured streams and never
raises; a non-zero exit logs an error-level message containing stderr,
a zero exit logs an info-level message containing stdout. -/
theorem run_command_spec (res : CmdResult) :
    (run_command res).1 = (res.stdout, res.stderr) ∧
    (res.returncode ≠ 0 →
      (run_command res).2.1 = Level.error ∧ SubstrOf res.stderr (run_command res).2.2) ∧
    (res.returncode = 0 →
      (run_command res).2.1 = Level.info ∧ SubstrOf res.stdout (run_command res).2.2) := by
  refine ⟨rfl, ?_, ?_⟩
  · intro h
    refine ⟨by simp [run_command, if_pos h], "Command failed with error: ", "", ?_⟩
    simp [run_command, if_pos h, String.append_empty]
  · intro h
    refine ⟨by simp [run_command, h], "Command output: ", "", ?_⟩
    simp [run_command, h, String.append_empty]

/-- Witness for C6 on a failing command: both streams are returned and
the error log carries stderr. -/
theorem run_command_spec_witness :
    (run_command ⟨1, "out", "err"⟩).1 = ("out", "err") ∧
    (run_command ⟨1, "out", "err"⟩).2.1 = Level.error ∧
    SubstrOf "err" (run_command ⟨1, "out", "err"⟩).2.2 :=
  ⟨(run_command_spec ⟨1, "out", "err"⟩).1,
    (run_command_spec ⟨1, "out", "err"⟩).2.1 (by decide)⟩

/-! ## The Benchmark Session -/

/-- The session object: the configured paths and the four optional
results, all unset at start. -/
structure BenchmarkTool where
  current_dir_path : String
  zkllvm_template_path : String
  assigner_total_gb : Option ℚ
  proof_total_gb : Option ℚ
  assigner_formatted_time : Option ℚ
  proof_formatted_time : Option ℚ
deriving DecidableEq, Repr

/-- Path `self.build_src`. -/
def build_src (t : BenchmarkTool) : String :=
  t.zkllvm_template_path ++ "/build/src"

/-- Path `self.build`. -/
def build (t : BenchmarkTool) : String :=
  t.zkllvm_template_path ++ "/build"

/-- Path `self.input_json`. -/
def input_json (t : BenchmarkTool) : String :=
  t.zkllvm_template_path ++ "/src/main-input.json"

/-! ## `verify_build` -/

/-- The three artifacts `verify_build` requires under `build/src`. -/
def required_files : List String := ["template.ll", "template.crct", "template.tbl"]

/-- Embeds `verify_build` over a file-existence oracle: filter the required
list down to the missing artifacts; a non-empty missing list is logged
at error level, naming them, and gives `false`. -/
def verify_build (fs : String → Bool) (t : BenchmarkTool) : Bool × List LogEntry :=
  let missing := required_files.filter (fun f => !fs (build_src t ++ "/" ++ f))
  if missing.isEmpty then (true, [])
  else (false, [(Level.error, "Missing required build files: " ++ joinSep ", " missing)])

lemma substrOf_joinSep {f : String} {l : List String} (sep : String) (h : f ∈ l) :
    SubstrOf f (joinSep sep l) := by
  induction l with
  | nil => cases h
  | cons x xs ih =>
    rcases xs with _ | ⟨y, ys⟩
    · obtain rfl : f = x := by simpa using h
      exact ⟨"", "", by simp [joinSep, String.append_empty]⟩
    · rcases List.mem_cons.mp h with rfl | hmem
      · exact ⟨"", sep ++ joinSep sep (y :: ys), by simp [joinSep, String.append_assoc]⟩
      · obtain ⟨p, q, hq⟩ := ih hmem
        exact ⟨x ++ sep ++ p, q, by simp [joinSep, hq, String.append_assoc]⟩

/-- C5: `verify_build` returns true exactly when the three required
files exist, and whenever a required file is missing it returns false
with an error message naming that file (hence every missing one). -/
theorem verify_build_spec (fs : String → Bool) (t : BenchmarkTool) :
    ((verify_build fs t).1 = true ↔
      ∀ f ∈ required_files, fs (build_src t ++ "/" ++ f) = true) ∧
    (∀ f ∈ required_files, fs (build_src t ++ "/" ++ f) = false →
      (verify_build fs t).1 = false ∧
      ∃ msg, (verify_build fs t).2 = [(Level.error, msg)] ∧ SubstrOf f msg) := by
  by_cases hE : (required_files.filter (fun f => !fs (build_src t ++ "/" ++ f))).isEmpty
  · have hnil := List.isEmpty_iff.mp hE
    have hall : ∀ f ∈ required_files, fs (build_src t ++ "/" ++ f) = true := by
      intro f hf
      have := List.filter_eq_nil_iff.mp hnil f hf
      simpa using this
    constructor
    · simp only [verify_build, if_pos hE]
      simpa using hall
    · intro f hf hmiss
      exact absurd (hall f hf) (by simp [hmiss])
  · constructor
    · simp only [verify_build, if_neg hE]
      constructor
      · intro h
        exact absurd h (by simp)
      · intro hall
        exfalso
        apply hE
        apply List.isEmpty_iff.mpr
        apply List.filter_eq_nil_iff.mpr
        intro f hf
        simp [hall f hf]
    · intro f hf hmiss
      refine ⟨by simp only [verify_build, if_neg hE], ?_⟩
      refine ⟨"Missing required build files: " ++
        joinSep ", " (required_files.filter (fun f => !fs (build_src t ++ "/" ++ f))), ?_, ?_⟩
      · simp only [verify_build, if_neg hE]
      · have hmem : f ∈ required_files.filter (fun f => !fs (build_src t ++ "/" ++ f)) :=
          List.mem_filter.mpr ⟨hf, by simp [hmiss]⟩
        obtain ⟨p, q, hq⟩ := substrOf_joinSep ", " hmem
        exact ⟨"Missing required build files: " ++ p, q,
          by rw [hq]; simp [String.append_assoc]⟩

/-- A session configured under `/work`. -/
def exTool : BenchmarkTool :=
  { current_dir_path := "/work/run",
    zkllvm_template_path := "/work/zkllvm-template",
    assigner_total_gb := none,
    proof_total_gb := none,
    assigner_formatted_time := none,
    proof_formatted_time := none }

/-- A filesystem holding only the intermediate-representation file. -/
def exFsOnlyLl : String → Bool :=
  fun s => s = "/work/zkllvm-template/build/src/template.ll"

/-- Witness for C5: with only `template.ll` present the check fails and
the message names the missing `template.crct`. -/
theorem verify_build_spec_witness :
    (verify_build exFsOnlyLl exTool).1 = false ∧
    ∃ msg, (verify_build exFsOnlyLl exTool).2 = [(Level.error, msg)] ∧
      SubstrOf "template.crct" msg :=
  (verify_build_spec exFsOnlyLl exTool).2 "template.crct" (by decide) (by decide)

/-! ## `display_results` -/

/-- Round to the nearest integer, ties to even, as the float formatting
of `:.2f` does on exact halves. -/
def roundHalfEven (q : ℚ) : ℤ :=
  if q - ⌊q⌋ < 1 / 2 then ⌊q⌋
  else if 1 / 2 < q - ⌊q⌋ then ⌊q⌋ + 1
  else if ⌊q⌋ % 2 = 0 then ⌊q⌋ else ⌊q⌋ + 1

/-- The f-string format `:.2f`: the value rounded to two decimals and
rendered with exactly two digits after the point. -/
def format2f (q : ℚ) : String :=
  let n := roundHalfEven (q * 100)
  let a := n.natAbs
  (if n < 0 then "-" else "") ++ toString (a / 100) ++ "." ++
    String.mk [Nat.digitChar (a % 100 / 10), Nat.digitChar (a % 100 % 10)]

/-- Python rendering of a stored float value, used for the time fields;
modelled as the rendering of the exact rational. -/
def pyFloatStr (q : ℚ) : String := toString q

/-- The first line printed by `display_results`. -/
def assigner_line (gb tm : ℚ) : String :=
  "1. Assigner:\n   Memory: " ++ format2f gb ++ "GB,\n   Time: " ++ pyFloatStr tm ++ "s"

/-- The second line printed by `display_results`. -/
def proof_line (gb tm : ℚ) : String :=
  "2. Proof:\n   Memory: " ++ format2f gb ++ "GB,\n   Time: " ++ pyFloatStr tm ++ "s"

/-- Embeds `display_results`: with any of the four results unset, log the
incompleteness error and print nothing; otherwise print the two result
lines. -/
def display_results (t : BenchmarkTool) : List LogEntry × List String :=
  match t.assigner_total_gb, t.assigner_formatted_time,
      t.proof_total_gb, t.proof_formatted_time with
  | some ag, some ta, some pg, some tp =>
    ([], [assigner_line ag ta, proof_line pg tp])
  | _, _, _, _ =>
    ([(Level.error, "Benchmark results are incomplete. Please run the benchmark first.")], [])

lemma digitChar_isDigit {d : ℕ} (h : d < 10) : (Nat.digitChar d).isDigit = true := by
  interval_cases d
  all_goals decide

/-- Lemma: `format2f` always renders a final decimal point followed by exactly
two digits. -/
lemma format2f_two_decimals (q : ℚ) :
    ∃ intPart d1 d2, format2f q = intPart ++ "." ++ String.mk [d1, d2] ∧
      d1.isDigit ∧ d2.isDigit := by
  refine ⟨(if roundHalfEven (q * 100) < 0 then "-" else "") ++
    toString ((roundHalfEven (q * 100)).natAbs / 100),
    Nat.digitChar ((roundHalfEven (q * 100)).natAbs % 100 / 10),
    Nat.digitChar ((roundHalfEven (q * 100)).natAbs % 100 % 10), rfl, ?_, ?_⟩
  · exact digitChar_isDigit (by omega)
  · exact digitChar_isDigit (by omega)

/-- C4: `display_results` prints nothing and logs an error while any of
the four result fields is unset; once all four are set it prints both
subjects, the memory figure formatted with exactly two decimal
places. -/
theorem display_results_spec (t : BenchmarkTool) :
    ((t.assigner_total_gb = none ∨ t.assigner_formatted_time = none ∨
      t.proof_total_gb = none ∨ t.proof_formatted_time = none) →
      display_results t =
        ([(Level.error, "Benchmark results are incomplete. Please run the benchmark first.")],
          [])) ∧
    (∀ ag ta pg tp, t.assigner_total_gb = some ag → t.assigner_formatted_time = some ta →
      t.proof_total_gb = some pg → t.proof_formatted_time = some tp →
      display_results t = ([], [assigner_line ag ta, proof_line pg tp]) ∧
      SubstrOf (format2f ag) (assigner_line ag ta) ∧
      SubstrOf (format2f pg) (proof_line pg tp) ∧
      (∃ intPart d1 d2, format2f ag = intPart ++ "." ++ String.mk [d1, d2] ∧
        d1.isDigit ∧ d2.isDigit) ∧
      (∃ intPart d1 d2, format2f pg = intPart ++ "." ++ String.mk [d1, d2] ∧
        d1.isDigit ∧ d2.isDigit)) := by
  obtain ⟨cd, zk, ag0, pg0, ta0, tp0⟩ := t
  constructor
  · intro hnone
    rcases ag0 with _ | ag <;> rcases ta0 with _ | ta <;> rcases pg0 with _ | pg <;>
      rcases tp0 with _ | tp <;> simp [display_results]
    all_goals simp at hnone
  · intro ag ta pg tp h1 h2 h3 h4
    simp only at h1 h2 h3 h4
    subst h1 h2 h3 h4
    refine ⟨by simp [display_results], ?_, ?_, format2f_two_decimals ag,
      format2f_two_decimals pg⟩
    · exact ⟨"1. Assigner:\n   Memory: ",
        "GB,\n   Time: " ++ pyFloatStr ta ++ "s",
        by simp [assigner_line, String.append_assoc]⟩
    · exact ⟨"2. Proof:\n   Memory: ",
        "GB,\n   Time: " ++ pyFloatStr tp ++ "s",
        by simp [proof_line, String.append_assoc]⟩

/-- A fully measured session. -/
def exToolFull : BenchmarkTool :=
  { current_dir_path := "/work/run",
    zkllvm_template_path := "/work/zkllvm-template",
    assigner_total_gb := some (3 / 2),
    proof_total_gb := some 2,
    assigner_formatted_time := some (25 / 2),
    proof_formatted_time := some 7 }

/-- Witness for C4: with all four results set, both lines appear and
the assigner memory renders as `1.50`. -/
theorem display_results_spec_witness :
    display_results exToolFull =
      ([], [assigner_line (3 / 2) (25 / 2), proof_line 2 7]) ∧
    format2f (3 / 2) = "1.50" := by
  refine ⟨((display_results_spec exToolFull).2 (3 / 2) (25 / 2) 2 7 rfl rfl rfl rfl).1, ?_⟩
  have hr : roundHalfEven ((3 : ℚ) / 2 * 100) = 150 := by
    unfold roundHalfEven
    norm_num
  simp only [format2f, hr]
  decide

/-! ## The menu loop (`BenchmarkTool.run`)

The interactive loop dispatches on the typed choice.  The external
world is an oracle giving file existence and the `CmdResult` of each
command line run in a working directory. -/

/-- The external collaborators: the filesystem and the subprocesses. -/
structure World where
  fs : String → Bool
  run : String → Option String → CmdResult

/-- One run call: the command line and its working directory. -/
abbrev RunCall := String × Option String

/-- Command built by `measure_assigner_heap_allocation`. -/
def assigner_massif_command (t : BenchmarkTool) : String :=
  "valgrind --massif-out-file=assigner_memory_bench --tool=massif assigner -b " ++
    build_src t ++ "/template.ll -p " ++ input_json t ++ " -c " ++ build_src t ++
    "/template.crct -t " ++ build_src t ++ "/template.tbl -e pallas"

/-- Command built by `measure_proof_generation_heap_allocation`; the
circuit path is rooted at `build`, not `build/src`, there. -/
def proof_massif_command (t : BenchmarkTool) : String :=
  "valgrind --massif-out-file=proof_memory_bench --tool=massif " ++
    "proof-generator-single-threaded --circuit " ++ build t ++
    "/template.crct --assignment " ++ build_src t ++ "/template.tbl --proof proof.bin"

/-- Command built by `measure_assigner_execution_time`; the menu loop
never invokes this method. -/
def assigner_time_command (t : BenchmarkTool) : String :=
  "time assigner -b " ++ build_src t ++ "/template.ll -p " ++ input_json t ++
    " -c " ++ build_src t ++ "/template.crct -t " ++ build_src t ++
    "/template.tbl -e pallas"

/-- Command built by `measure_proof_generation_execution_time`. -/
def proof_time_command (t : BenchmarkTool) : String :=
  "time proof-generator-single-threaded --circuit " ++ build_src t ++
    "/template.crct --assignment " ++ build_src t ++ "/template.tbl --proof " ++
    build t ++ "/proof.bin"

/-- One iteration of the menu loop at a given choice: the updated
session and the commands run, or the propagated parse exception.
Choices 4 and 5 both call `measure_proof_generation_execution_time` in
the source, so both run the proof-generation timing command; the time
is extracted from the stderr stream, where `time` writes its report. -/
def menuStep (w : World) (t : BenchmarkTool) (choice : String) :
    Except String (BenchmarkTool × List RunCall) :=
  if choice = "1" then .ok (t, [])
  else if choice = "2" then
    let c1 := assigner_massif_command t
    let _ := run_command (w.run c1 (some t.current_dir_path))
    let c2 := "ms_print assigner_memory_bench"
    let r2 := run_command (w.run c2 none)
    match process_massif_output r2.1.1 with
    | .error e => .error e
    | .ok rows =>
      let totalB := (rows.getLastD ⟨none, 0, 0, 0, 0, 0⟩).totalB
      .ok ({ t with assigner_total_gb := some ((totalB : ℚ) / 2 ^ 30) },
        [(c1, some t.current_dir_path), (c2, none)])
  else if choice = "3" then
    let c1 := proof_massif_command t
    let _ := run_command (w.run c1 (some t.current_dir_path))
    let c2 := "ms_print proof_memory_bench"
    let r2 := run_command (w.run c2 none)
    match process_massif_output r2.1.1 with
    | .error e => .error e
    | .ok rows =>
      let totalB := (rows.getLastD ⟨none, 0, 0, 0, 0, 0⟩).totalB
      .ok ({ t with proof_total_gb := some ((totalB : ℚ) / 2 ^ 30) },
        [(c1, some t.current_dir_path), (c2, none)])
  else if choice = "4" then
    let c := proof_time_command t
    let r := run_command (w.run c (some t.current_dir_path))
    .ok ({ t with assigner_formatted_time := extract_and_convert_time r.1.2 },
      [(c, some t.current_dir_path)])
  else if choice = "5" then
    let c := proof_time_command t
    let r := run_command (w.run c (some t.current_dir_path))
    .ok ({ t with proof_formatted_time := extract_and_convert_time r.1.2 },
      [(c, some t.current_dir_path)])
  else .ok (t, [])

/-- Repeated runs of the verify-build menu action. -/
def iterate_verify (w : World) : ℕ → BenchmarkTool → BenchmarkTool
  | 0, t => t
  | n + 1, t =>
    match menuStep w t "1" with
    | .ok (t2, _) => iterate_verify w n t2
    | .error _ => t

/-- C9: the verify-build action, run any number of times against any
filesystem state, leaves all four result fields and both configured
paths unchanged. -/
theorem verify_build_frame (w : World) (t : BenchmarkTool) (n : ℕ) :
    (iterate_verify w n t).assigner_total_gb = t.assigner_total_gb ∧
    (iterate_verify w n t).proof_total_gb = t.proof_total_gb ∧
    (iterate_verify w n t).assigner_formatted_time = t.assigner_formatted_time ∧
    (iterate_verify w n t).proof_formatted_time = t.proof_formatted_time ∧
    (iterate_verify w n t).current_dir_path = t.current_dir_path ∧
    (iterate_verify w n t).zkllvm_template_path = t.zkllvm_template_path := by
  have h : ∀ m s, iterate_verify w m s = s := by
    intro m
    induction m with
    | zero => intro s; rfl
    | succ k ih =>
      intro s
      simpa [iterate_verify, menuStep] using ih s
  simp [h]

/-- A world whose commands all exit 0 with a timing report on stderr. -/
def exWorld : World :=
  { fs := fun _ => true,
    run := fun _ _ => { returncode := 0, stdout := "", stderr := "0:03.50elapsed" } }

/-- C3 at the failing input: menu choice 4 (the measure-assigner-time
action) runs the proof-generation timing command, not the assigner
command, and stores the seconds extracted from its stderr as the
assigner time result. -/
theorem menu_choice4_runs_proof_command :
    menuStep exWorld exTool "4" =
      .ok ({ exTool with assigner_formatted_time :=
              extract_and_convert_time "0:03.50elapsed" },
        [(proof_time_command exTool, some "/work/run")]) ∧
    extract_and_convert_time "0:03.50elapsed" = some (7 / 2) ∧
    proof_time_command exTool ≠ assigner_time_command exTool := by
  refine ⟨rfl, ?_, by decide⟩
  have h : searchElapsed "0:03.50elapsed".data = some (['0'], ['0', '3'], ['5', '0']) := by
    decide
  have e1 : natOfDigits ['0'] = 0 := by decide
  have e2 : natOfDigits ['0', '3'] = 3 := by decide
  have e3 : natOfDigits ['5', '0'] = 50 := by decide
  simp only [extract_and_convert_time, h, ratOfSec, e1, e2, e3,
    List.length_cons, List.length_nil]
  norm_num

end Benchmark
